import Mathlib

/-!
# Verification of the caniuse-mcp support-resolution pipeline

Shallow embedding of the repository's core components:

* `src/config-manager.js` — effective configuration, target resolution
  (`resolveTargetVersion`), override / polyfill / fallback accessors;
* `src/caniuse-client.js`  — support-matrix lookup (`getBrowserSupport`),
  the code→status table (`getSupportStatus`) and the configured resolver
  (`getFeatureSupportWithConfig`);
* `src/enhanced-compatibility-checker.js` — summary aggregation
  (`_generateCompatibilitySummary`);
* `src/project-scanner.js` — bounded directory traversal
  (`_scanDirectoryRecursive`).

JavaScript objects used as dictionaries are modelled as association lists
with first-key-wins lookup; `undefined` results are `Option.none`; the JS
truthiness test applied to looked-up strings is modelled explicitly (a
present but empty string is falsy).  Asynchronous I/O outcomes
(`getFeatureData`, which fetches the support matrix and throws on any
failure) are passed in as an `Except String FeatureData` value, error
carrying the thrown message.  Floating-point arithmetic on scores is
modelled over `ℚ`; `Math.round` on the non-negative values that occur is
`⌊q + 1/2⌋`.
-/

/-- First-key-wins lookup in an association list, modelling JS property
access `obj[key]` returning `undefined` (`none`) when the key is absent. -/
def alistLookup {α : Type} (l : List (String × α)) (k : String) : Option α :=
  (l.find? (fun p => p.1 == k)).map (·.2)

/-- JS truthiness of a string-valued property access: the key must be
present and its value must be a non-empty string. -/
def lookupTruthy (l : List (String × String)) (k : String) : Option String :=
  match alistLookup l k with
  | some v => if v = "" then none else some v
  | none => none

/-- `{browser, version}` pair (config-manager.js). -/
structure BrowserVersion where
  browser : String
  version : String
deriving Repr, DecidableEq

/-- The effective configuration produced by `ConfigManager.loadConfig`
(default < file < environment merge already applied).  Fields mirror
`defaultConfig` in config-manager.js lines 8–20. -/
structure Config where
  defaultBaseline : String
  customTargets : List (String × BrowserVersion)
  polyfills : List String
  overrides : List (String × String)
  browserFallbacks : List (String × List String)
deriving Repr, DecidableEq

/-- `ConfigManager.getFeatureOverride` (config-manager.js line 150):
`config.overrides[featureName]`. -/
def getFeatureOverride (cfg : Config) (featureName : String) : Option String :=
  alistLookup cfg.overrides featureName

/-- `ConfigManager.isFeaturePolyfilled` (config-manager.js line 145):
`config.polyfills.includes(featureName)`. -/
def isFeaturePolyfilled (cfg : Config) (featureName : String) : Bool :=
  cfg.polyfills.contains featureName

/-- `ConfigManager.getFallbackVersions` (config-manager.js line 155):
`config.browserFallbacks[browser] || []`. -/
def getFallbackVersions (cfg : Config) (browser : String) : List String :=
  (alistLookup cfg.browserFallbacks browser).getD []

/-- The built-in target table of `ConfigManager.getBrowserTargets`
(config-manager.js lines 103–110). -/
def builtInTargets : List (String × BrowserVersion) :=
  [("chrome-37", ⟨"chrome", "37"⟩),
   ("chrome-latest", ⟨"chrome", "latest"⟩),
   ("firefox-esr", ⟨"firefox", "78"⟩),
   ("safari-12", ⟨"safari", "12"⟩),
   ("ie-11", ⟨"ie", "11"⟩),
   ("edge-legacy", ⟨"edge", "18"⟩)]

/-- Lookup in the merged target table `{...builtInTargets,
...config.customTargets}` of `ConfigManager.getBrowserTargets`
(config-manager.js lines 113–116); the object spread makes custom
entries shadow built-ins, so custom targets are consulted first. -/
def getBrowserTargets (cfg : Config) (key : String) : Option BrowserVersion :=
  match alistLookup cfg.customTargets key with
  | some bv => some bv
  | none => alistLookup builtInTargets key

/-- A lowercase ASCII letter, the character class `[a-z]`. -/
def isLowerAZ (c : Char) : Bool := 'a' ≤ c && c ≤ 'z'

/-- A character matched by `.` in a JS regex without the dot-all flag:
anything but the four line terminators. -/
def isRegexDot (c : Char) : Bool :=
  c ≠ '\n' && c ≠ '\r' && c.val ≠ 0x2028 && c.val ≠ 0x2029

/-- The regex `^([a-z]+)-(.+)$` of `ConfigManager.resolveTargetVersion`
(config-manager.js line 129) on a character list: a non-empty run of
lowercase ASCII letters, a hyphen, then a non-empty remainder matched by
`.+`. -/
def parseTargetCore (cs : List Char) : Option (List Char × List Char) :=
  match cs.takeWhile isLowerAZ, cs.drop (cs.takeWhile isLowerAZ).length with
  | [], _ => none
  | letters, '-' :: v =>
    if v ≠ [] ∧ v.all isRegexDot then some (letters, v) else none
  | _, _ => none

/-- String-level wrapper of the `^([a-z]+)-(.+)$` match: the two capture
groups of config-manager.js line 129. -/
def parseTargetToken (s : String) : Option (String × String) :=
  match parseTargetCore s.data with
  | some (b, v) => some (b.asString, v.asString)
  | none => none

/-- `ConfigManager.resolveTargetVersion` (config-manager.js lines 119–143):
exact target-table match, then `<browser>-<version>` parse, then the
configured default baseline, then the fixed `{chrome, "37"}` pair. -/
def resolveTargetVersion (cfg : Config) (targetString : String) : BrowserVersion :=
  match getBrowserTargets cfg targetString with
  | some bv => bv
  | none =>
    match parseTargetToken targetString with
    | some (b, v) => ⟨b, v⟩
    | none =>
      match getBrowserTargets cfg cfg.defaultBaseline with
      | some bv => bv
      | none => ⟨"chrome", "37"⟩

/-- Feature data returned by the caniuse endpoint: only the `stats`
matrix (browser → version → one-character support code) is consulted by
the client; the field may be absent (`!featureData.stats`). -/
structure FeatureData where
  stats : Option (List (String × List (String × String)))
deriving Repr, DecidableEq

/-- Digits-to-number accumulator used by `parseFloat?`. -/
def parseDigits (cs : List Char) : Nat :=
  cs.foldl (fun acc c => acc * 10 + (c.toNat - '0'.toNat)) 0

/-- JS `parseFloat` on the fragment relevant to version strings: an
optional sign, then the longest prefix `digits[.digits]`; `none` models
`NaN` (no leading numeric prefix at all). -/
def parseFloatQ (s : String) : Option ℚ :=
  let cs := s.data
  let sign : ℚ := if cs.head? = some '-' then -1 else 1
  let cs1 := match cs with
    | '-' :: rest => rest
    | '+' :: rest => rest
    | _ => cs
  let intDigits := cs1.takeWhile Char.isDigit
  let rest1 := cs1.drop intDigits.length
  let fracDigits := match rest1 with
    | '.' :: r => r.takeWhile Char.isDigit
    | _ => []
  if intDigits.isEmpty && fracDigits.isEmpty then none
  else some (sign * ((parseDigits intDigits : ℚ) +
    (parseDigits fracDigits : ℚ) / (10 ^ fracDigits.length)))

/-- Ordering used by the closest-version sort (caniuse-client.js line 70:
`.sort((a, b) => a.numeric - b.numeric)`): compare the parsed numeric
values. -/
def byNumeric (a b : String × ℚ) : Prop := a.2 ≤ b.2

instance : DecidableRel byNumeric := fun a b => inferInstanceAs (Decidable (a.2 ≤ b.2))

instance : IsTotal (String × ℚ) byNumeric := ⟨fun a b => le_total a.2 b.2⟩

instance : IsTrans (String × ℚ) byNumeric := ⟨fun _ _ _ h h' => le_trans h h'⟩

/-- `availableVersions.map(v => ({version: v, numeric: parseFloat(v)}))
.filter(v => !isNaN(v.numeric)).sort((a,b) => a.numeric - b.numeric)`
(caniuse-client.js lines 67–70). -/
def sortedNumeric (avail : List String) : List (String × ℚ) :=
  (avail.filterMap (fun v => (parseFloatQ v).map (fun q => (v, q)))).insertionSort byNumeric

/-- The loop of caniuse-client.js lines 75–82: walk the ascending list,
remembering the last version whose numeric value is `≤ t`, and stop at
the first one above `t`. -/
def pickClosest (t : ℚ) : List (String × ℚ) → Option String
  | [] => none
  | v :: rest =>
    if v.2 ≤ t then
      match pickClosest t rest with
      | some k => some k
      | none => some v.1
    else none

/-- The closest-version step of `getBrowserSupport` (caniuse-client.js
lines 63–87): parse the target version, discard non-numeric keys, sort
ascending, and select the greatest version `≤` the target
(`closest`); `none` when the target itself is non-numeric or no key
qualifies. -/
def closestStep (avail : List String) (version : String) : Option String :=
  match parseFloatQ version with
  | some t => pickClosest t (sortedNumeric avail)
  | none => none

/-- First configured fallback version whose matrix entry is truthy
(caniuse-client.js lines 56–61). -/
def firstFallback (bstats : List (String × String)) : List String → Option String
  | [] => none
  | f :: rest =>
    match lookupTruthy bstats f with
    | some v => some v
    | none => firstFallback bstats rest

/-- `numericVersions[0]?.version` fallback of caniuse-client.js lines
89–93: the lowest available numeric version, if its entry is truthy. -/
def lowestFallback (bstats : List (String × String)) (avail : List String) : Option String :=
  match (sortedNumeric avail).head? with
  | some v => if v.1 = "" then none else lookupTruthy bstats v.1
  | none => none

/-- `CanIUseClient.getBrowserSupport` (caniuse-client.js lines 45–97).
The `await this.configManager.getFallbackVersions(browser)` call is
passed in as the `fallbackVersions` argument. -/
def getBrowserSupport (fallbackVersions : List String) (featureData : FeatureData)
    (browser version : String) : Option String :=
  match featureData.stats with
  | none => none
  | some stats =>
    match alistLookup stats browser with
    | none => none
    | some bstats =>
      match lookupTruthy bstats version with
      | some v => some v
      | none =>
        match firstFallback bstats fallbackVersions with
        | some v => some v
        | none =>
          let avail := bstats.map (·.1)
          if avail.length > 0 then
            match closestStep avail version with
            | some k =>
              match lookupTruthy bstats k with
              | some v => some v
              | none => lowestFallback bstats avail
            | none => lowestFallback bstats avail
          else none

/-- A `{supported, type, description}` record of
`CanIUseClient.getSupportStatus`. -/
structure SupportStatus where
  supported : Bool
  type : String
  description : String
deriving Repr, DecidableEq

/-- `CanIUseClient.getSupportStatus` (caniuse-client.js lines 99–110):
the fixed code→status table, unmapped codes falling back to `unknown`. -/
def getSupportStatus (supportValue : String) : SupportStatus :=
  if supportValue = "y" then ⟨true, "full", "Full support"⟩
  else if supportValue = "a" then ⟨true, "partial", "Partial support"⟩
  else if supportValue = "n" then ⟨false, "none", "No support"⟩
  else if supportValue = "d" then ⟨false, "disabled", "Disabled by default"⟩
  else if supportValue = "p" then ⟨false, "polyfill", "Requires polyfill"⟩
  else if supportValue = "u" then ⟨false, "unknown", "Support unknown"⟩
  else ⟨false, "unknown", "Unknown support status"⟩

/-- The decision record returned by
`CanIUseClient.getFeatureSupportWithConfig`; fields that a JS branch
omits are `none`. -/
structure SupportResult where
  supported : Bool
  type : String
  description : String
  source : String
  originalSupport : Option SupportStatus := none
  rawValue : Option String := none
deriving Repr, DecidableEq

/-- `supportValue || 'n'` (caniuse-client.js line 128): a null or empty
support value is coerced to the code `'n'`. -/
def rawCodeOf (supportValue : Option String) : String :=
  match supportValue with
  | some v => if v = "" then "n" else v
  | none => "n"

/-- The body of `getFeatureSupportWithConfig` after the override check
(caniuse-client.js lines 125–158): matrix retrieval (its outcome passed
as `fetchResult`), status mapping, polyfill upgrade, and the catch-all
error conversion. -/
def resolveWithData (cfg : Config) (fetchResult : Except String FeatureData)
    (featureName browser version : String) : SupportResult :=
  match fetchResult with
  | .error e =>
    { supported := false, type := "error",
      description := "Error checking support: " ++ e, source := "error" }
  | .ok featureData =>
    let supportValue := getBrowserSupport (getFallbackVersions cfg browser)
      featureData browser version
    let status := getSupportStatus (rawCodeOf supportValue)
    if isFeaturePolyfilled cfg featureName && !status.supported then
      { supported := true, type := "polyfilled",
        description := "Supported via polyfill",
        originalSupport := some status, source := "polyfill",
        rawValue := supportValue }
    else
      { supported := status.supported, type := status.type,
        description := status.description, source := "caniuse-data",
        rawValue := supportValue }

/-- `CanIUseClient.getFeatureSupportWithConfig` (caniuse-client.js lines
112–159).  The override check precedes matrix retrieval; `if (override)`
is the truthiness test on the looked-up override value. -/
def getFeatureSupportWithConfig (cfg : Config) (fetchResult : Except String FeatureData)
    (featureName browser version : String) : SupportResult :=
  match getFeatureOverride cfg featureName with
  | some ov =>
    if ov = "" then resolveWithData cfg fetchResult featureName browser version
    else
      { supported := ov == "supported",
        type := if ov == "supported" then "override" else "override-disabled",
        description := if ov == "supported" then "Forced supported by configuration"
          else "Forced unsupported by configuration",
        source := "config-override" }
  | none => resolveWithData cfg fetchResult featureName browser version

/-- `Math.round` on the non-negative rational values produced by the
score formulas: round half away from zero is `⌊q + 1/2⌋` there. -/
def jsRound (q : ℚ) : ℤ := ⌊q + (1 : ℚ) / 2⌋

/-- The per-target result consumed by
`_generateCompatibilitySummary`: the count fields and unsupported
feature list of `_checkFeaturesForTarget`'s return value
(enhanced-compatibility-checker.js lines 138–151). -/
structure TargetResult where
  total : Nat
  supported : Nat
  unsupported : Nat
  unsupportedFeatures : List String
deriving Repr, DecidableEq

/-- One entry of `summary.targets`
(enhanced-compatibility-checker.js lines 170–175). -/
structure TargetSummary where
  score : ℤ
  supported : Nat
  unsupported : Nat
  issues : List String
deriving Repr, DecidableEq

/-- One entry of `summary.criticalIssues`
(enhanced-compatibility-checker.js lines 186–189). -/
structure Issue where
  feature : String
  targets : List String
deriving Repr, DecidableEq

/-- `summary.criticalIssues.find(issue => issue.feature === feature)`
followed by `existing.targets.push(target)` or
`summary.criticalIssues.push({feature, targets: [target]})`
(enhanced-compatibility-checker.js lines 181–191): append the target to
the first issue recorded for this feature, or append a fresh issue. -/
def addIssueTarget : List Issue → String → String → List Issue
  | [], target, feature => [⟨feature, [target]⟩]
  | i :: rest, target, feature =>
    if i.feature = feature then ⟨i.feature, i.targets ++ [target]⟩ :: rest
    else i :: addIssueTarget rest target feature

/-- The `result.unsupportedFeatures.forEach(...)` loop for one target. -/
def addTargetIssues (issues : List Issue) (target : String)
    (feats : List String) : List Issue :=
  feats.foldl (fun acc f => addIssueTarget acc target f) issues

/-- Accumulator of the `for (const target of targets)` loop of
`_generateCompatibilitySummary` (enhanced-compatibility-checker.js
lines 162–192). -/
structure SummaryState where
  totalSupported : Nat
  totalFeatures : Nat
  targetsSummary : List (String × TargetSummary)
  criticalIssues : List Issue
deriving Repr, DecidableEq

/-- One iteration of that loop; a target with no result entry is skipped
(`if (!result) continue`). -/
def summaryStep (results : List (String × TargetResult)) (st : SummaryState)
    (target : String) : SummaryState :=
  match alistLookup results target with
  | none => st
  | some r =>
    let score : ℤ :=
      if r.total > 0 then jsRound ((r.supported : ℚ) / (r.total : ℚ) * 100) else 100
    { totalSupported := st.totalSupported + r.supported,
      totalFeatures := st.totalFeatures + r.total,
      targetsSummary := st.targetsSummary ++
        [(target, ⟨score, r.supported, r.unsupported, r.unsupportedFeatures⟩)],
      criticalIssues := addTargetIssues st.criticalIssues target r.unsupportedFeatures }

/-- The summary record (enhanced-compatibility-checker.js lines 155–160). -/
structure CompatibilitySummary where
  overallScore : ℤ
  targetsSummary : List (String × TargetSummary)
  criticalIssues : List Issue
  commonUnsupported : List String
deriving Repr, DecidableEq

/-- The final lines (194–199) of `_generateCompatibilitySummary`: the
overall score from the accumulated totals and the `commonUnsupported`
filter over the accumulated issues. -/
def summaryFinish (targets : List String) (st : SummaryState) : CompatibilitySummary :=
  { overallScore :=
      if st.totalFeatures > 0 then
        jsRound ((st.totalSupported : ℚ) / (st.totalFeatures : ℚ) / (targets.length : ℚ) * 100)
      else 100,
    targetsSummary := st.targetsSummary,
    criticalIssues := st.criticalIssues,
    commonUnsupported :=
      (st.criticalIssues.filter (fun i => i.targets.length = targets.length)).map (·.feature) }

/-- `EnhancedCompatibilityChecker._generateCompatibilitySummary`
(enhanced-compatibility-checker.js lines 154–202).  `results` is the
`compatibilityResults` map, `targets` the requested target list. -/
def generateCompatibilitySummary (results : List (String × TargetResult))
    (targets : List String) : CompatibilitySummary :=
  summaryFinish targets (targets.foldl (summaryStep results) ⟨0, 0, [], []⟩)

/-- A directory tree entry as observed by `readdir`/`stat`
(project-scanner.js lines 72–82); file contents are irrelevant to the
traversal itself, which delegates content inspection to `scanFile`. -/
inductive FSEntry where
  | file (name : String)
  | dir (name : String) (entries : List FSEntry)
deriving Repr

/-- `path.extname` on a single directory entry name: the suffix from the
last dot, empty when there is no dot or the dot is the leading
character. -/
def extnameOf (name : String) : String :=
  let cs := name.data
  match cs.reverse.findIdx? (· == '.') with
  | none => ""
  | some revIdx =>
    let pos := cs.length - 1 - revIdx
    if pos = 0 then "" else (cs.drop pos).asString

/-- `this.supportedExtensions` (project-scanner.js line 39). -/
def supportedExtensionList : List String :=
  [".js", ".jsx", ".ts", ".tsx", ".css", ".scss", ".sass", ".less"]

/-- Script-like extensions (project-scanner.js line 92). -/
def jsExtensionList : List String := [".js", ".jsx", ".ts", ".tsx"]

/-- Style-like extensions (project-scanner.js line 94). -/
def cssExtensionList : List String := [".css", ".scss", ".sass", ".less"]

/-- The `results.summary` counters maintained by the traversal. -/
structure ScanSummary where
  totalFiles : Nat
  jsFiles : Nat
  cssFiles : Nat
deriving Repr, DecidableEq

/-- The `results` accumulator of `scanDirectory` (project-scanner.js
lines 49–58): matched files (path with detected features), the inverse
feature index (feature → file paths, in encounter order), and the
counters. -/
structure ScanResults where
  files : List (String × List String)
  featuresIdx : List (String × List String)
  summary : ScanSummary
deriving Repr, DecidableEq

/-- `results.features.has/set/get(...).push` (project-scanner.js lines
98–106): append the path under the first entry for this feature, or
append a fresh entry. -/
def idxAdd : List (String × List String) → String → String → List (String × List String)
  | [], feature, path => [(feature, [path])]
  | e :: rest, feature, path =>
    if e.1 = feature then (e.1, e.2 ++ [path]) :: rest
    else e :: idxAdd rest feature path

/-- Static traversal parameters plus the content-inspection step: the
claim about depth bounding holds for every behaviour of
`this.scanFile`, so its feature extraction (path ↦ detected features)
is a parameter of the embedding. -/
structure ScanParams where
  scanFileFn : String → List String
  excludeDirs : List String
  includeFiles : List String
  maxDepth : Nat

/-- The `stats.isFile()` branch of `_scanDirectoryRecursive`
(project-scanner.js lines 82–108): extension / include-list filter, scan
the file, and record it only when at least one feature matched. -/
def processFileItem (p : ScanParams) (dirPath name : String)
    (results : ScanResults) : ScanResults :=
  let ext := extnameOf name
  if supportedExtensionList.contains ext || p.includeFiles.contains name then
    let path := dirPath ++ "/" ++ name
    let feats := p.scanFileFn path
    if feats.isEmpty then results
    else
      { files := results.files ++ [(path, feats)],
        featuresIdx := feats.foldl (fun idx f => idxAdd idx f path) results.featuresIdx,
        summary :=
          { totalFiles := results.summary.totalFiles + 1,
            jsFiles := results.summary.jsFiles +
              (if jsExtensionList.contains ext then 1 else 0),
            cssFiles := results.summary.cssFiles +
              (if cssExtensionList.contains ext then 1 else 0) } }
  else results

/-- The `for (const item of items)` loop of `_scanDirectoryRecursive`
(project-scanner.js lines 74–113); a subdirectory not in the exclude set
is recursed into with `currentDepth + 1`, and the recursive call's
leading `if (currentDepth > maxDepth) return` guard is applied to that
incremented depth. -/
def scanItems (p : ScanParams) :
    List FSEntry → String → Nat → ScanResults → ScanResults
  | [], _, _, results => results
  | FSEntry.file name :: rest, dirPath, depth, results =>
    scanItems p rest dirPath depth (processFileItem p dirPath name results)
  | FSEntry.dir name sub :: rest, dirPath, depth, results =>
    scanItems p rest dirPath depth
      (if p.excludeDirs.contains name then results
       else if depth + 1 > p.maxDepth then results
       else scanItems p sub (dirPath ++ "/" ++ name) (depth + 1) results)

/-- `ProjectScanner._scanDirectoryRecursive` (project-scanner.js lines
68–117): return unchanged once the depth counter exceeds `maxDepth`,
otherwise process the directory's entries. -/
def scanDirectoryRecursive (p : ScanParams) (entries : List FSEntry)
    (dirPath : String) (currentDepth : Nat) (results : ScanResults) : ScanResults :=
  if currentDepth > p.maxDepth then results
  else scanItems p entries dirPath currentDepth results

/-- `ProjectScanner.scanDirectory` (project-scanner.js lines 42–66):
start the recursion at depth 0 with empty accumulators. -/
def scanDirectory (p : ScanParams) (rootEntries : List FSEntry)
    (rootPath : String) : ScanResults :=
  scanDirectoryRecursive p rootEntries rootPath 0 ⟨[], [], ⟨0, 0, 0⟩⟩

/-- Scanning restricted to the top-level files of the root directory,
stated from the spec's scenario wording ("only top-level files are
scanned; nested files absent"): fold over the root's entries, processing
file entries and ignoring every subdirectory. -/
def scanTopLevelOnly (p : ScanParams) (entries : List FSEntry)
    (rootPath : String) (results : ScanResults) : ScanResults :=
  entries.foldl
    (fun acc e =>
      match e with
      | FSEntry.file name => processFileItem p rootPath name acc
      | FSEntry.dir _ _ => acc) results

/-- Helper: with no override configured for the feature, resolution
proceeds to the data path. -/
theorem resolve_of_no_override (cfg : Config) (fetchResult : Except String FeatureData)
    (f b v : String) (hov : getFeatureOverride cfg f = none) :
    getFeatureSupportWithConfig cfg fetchResult f b v =
      resolveWithData cfg fetchResult f b v := by
  unfold getFeatureSupportWithConfig
  rw [hov]

/-- C1: a configured (truthy) override short-circuits resolution: the
returned decision is the override's status (`override` /
`override-disabled`, provenance `config-override`), for every fetch
outcome and every polyfill set. -/
theorem override_takes_precedence (cfg : Config) (polys : List String)
    (fetchResult : Except String FeatureData) (f b v ov : String)
    (hov : getFeatureOverride cfg f = some ov) (hne : ov ≠ "") :
    getFeatureSupportWithConfig { cfg with polyfills := polys } fetchResult f b v =
      { supported := ov == "supported",
        type := if ov == "supported" then "override" else "override-disabled",
        description := if ov == "supported" then "Forced supported by configuration"
          else "Forced unsupported by configuration",
        source := "config-override" } := by
  unfold getFeatureSupportWithConfig
  have h2 : getFeatureOverride { cfg with polyfills := polys } f = some ov := hov
  rw [h2]
  simp [hne]

theorem override_takes_precedence_witness :
    getFeatureSupportWithConfig
        ⟨"chrome-37", [], ["css-grid"], [("css-variables", "supported")], []⟩
        (.error "network down") "css-variables" "chrome" "37" =
      { supported := true, type := "override",
        description := "Forced supported by configuration",
        source := "config-override" } := by
  have h := override_takes_precedence
    ⟨"chrome-37", [], [], [("css-variables", "supported")], []⟩ ["css-grid"]
    (.error "network down") "css-variables" "chrome" "37" "supported"
    (by decide) (by decide)
  exact h.trans (by decide)

/-- C7: when no override applies and matrix retrieval fails with message
`e`, `getFeatureSupportWithConfig` returns (rather than throws) the
converted decision: `supported = false`, kind `error`, provenance
`error`. -/
theorem fetch_error_becomes_error_decision (cfg : Config) (f b v e : String)
    (hov : getFeatureOverride cfg f = none) :
    getFeatureSupportWithConfig cfg (.error e) f b v =
      { supported := false, type := "error",
        description := "Error checking support: " ++ e, source := "error" } := by
  rw [resolve_of_no_override cfg _ f b v hov]
  rfl

theorem fetch_error_becomes_error_decision_witness :
    getFeatureSupportWithConfig ⟨"chrome-37", [], [], [], []⟩
        (.error "boom") "css-grid" "chrome" "37" =
      { supported := false, type := "error",
        description := "Error checking support: boom", source := "error" } :=
  fetch_error_becomes_error_decision ⟨"chrome-37", [], [], [], []⟩
    "css-grid" "chrome" "37" "boom" (by decide)

/-- C10: when the feature data has no `stats` field or the stats contain
no entry for the requested browser, `getBrowserSupport` returns `none`
for every fallback-version list and every version: neither the fallback
versions nor the closest-version search is consulted. -/
theorem browser_absent_returns_none (fd : FeatureData) (browser : String)
    (h : fd.stats = none ∨
      ∃ stats, fd.stats = some stats ∧ alistLookup stats browser = none) :
    ∀ fallbackVersions version,
      getBrowserSupport fallbackVersions fd browser version = none := by
  intro fallbackVersions version
  rcases h with h | ⟨stats, hs, hb⟩
  · simp only [getBrowserSupport, h]
  · simp only [getBrowserSupport, hs, hb]

theorem browser_absent_returns_none_witness :
    getBrowserSupport ["37"] ⟨some [("firefox", [("78", "y")])]⟩ "chrome" "60" = none :=
  browser_absent_returns_none ⟨some [("firefox", [("78", "y")])]⟩ "chrome"
    (Or.inr ⟨[("firefox", [("78", "y")])], rfl, by decide⟩) ["37"] "60"

/-- C4: a polyfilled feature with no override whose raw matrix-derived
status is unsupported is upgraded to `supported = true`, kind
`polyfilled`, provenance `polyfill`, retaining the pre-upgrade status as
`originalSupport` with `originalSupport.supported = false`. -/
theorem polyfill_upgrade (cfg : Config) (fd : FeatureData) (f b v : String)
    (hov : getFeatureOverride cfg f = none)
    (hpoly : isFeaturePolyfilled cfg f = true)
    (hunsup : (getSupportStatus (rawCodeOf
      (getBrowserSupport (getFallbackVersions cfg b) fd b v))).supported = false) :
    getFeatureSupportWithConfig cfg (.ok fd) f b v =
      { supported := true, type := "polyfilled",
        description := "Supported via polyfill",
        originalSupport := some (getSupportStatus (rawCodeOf
          (getBrowserSupport (getFallbackVersions cfg b) fd b v))),
        source := "polyfill",
        rawValue := getBrowserSupport (getFallbackVersions cfg b) fd b v } ∧
    ∃ os, (getFeatureSupportWithConfig cfg (.ok fd) f b v).originalSupport = some os ∧
      os.supported = false := by
  have hmain : getFeatureSupportWithConfig cfg (.ok fd) f b v =
      { supported := true, type := "polyfilled",
        description := "Supported via polyfill",
        originalSupport := some (getSupportStatus (rawCodeOf
          (getBrowserSupport (getFallbackVersions cfg b) fd b v))),
        source := "polyfill",
        rawValue := getBrowserSupport (getFallbackVersions cfg b) fd b v } := by
    rw [resolve_of_no_override cfg _ f b v hov]
    unfold resolveWithData
    simp [hpoly, hunsup]
  exact ⟨hmain, _, by rw [hmain], hunsup⟩

theorem polyfill_upgrade_witness :
    getFeatureSupportWithConfig ⟨"chrome-37", [], ["css-grid"], [], []⟩
        (.ok ⟨some [("chrome", [("50", "n")])]⟩) "css-grid" "chrome" "50" =
      { supported := true, type := "polyfilled",
        description := "Supported via polyfill",
        originalSupport := some ⟨false, "none", "No support"⟩,
        source := "polyfill", rawValue := some "n" } := by
  have h := (polyfill_upgrade ⟨"chrome-37", [], ["css-grid"], [], []⟩
    ⟨some [("chrome", [("50", "n")])]⟩ "css-grid" "chrome" "50"
    (by decide) (by decide) (by decide)).1
  exact h.trans (by decide)

/-- C8 counterexample: with no override and no polyfill, a matrix lookup
that yields no support code at all (browser map has no matching version
data) produces kind `none` — not kind `unknown` — because the absent
value is coerced to the code `'n'` before the status table is
consulted. -/
theorem absent_code_yields_kind_none :
    (getFeatureSupportWithConfig ⟨"chrome-37", [], [], [], []⟩
      (.ok ⟨some [("chrome", [])]⟩) "css-grid" "chrome" "50").supported = false ∧
    (getFeatureSupportWithConfig ⟨"chrome-37", [], [], [], []⟩
      (.ok ⟨some [("chrome", [])]⟩) "css-grid" "chrome" "50").type = "none" ∧
    (getFeatureSupportWithConfig ⟨"chrome-37", [], [], [], []⟩
      (.ok ⟨some [("chrome", [])]⟩) "css-grid" "chrome" "50").type ≠ "unknown" := by
  refine ⟨?_, ?_, ?_⟩ <;> decide

/-- C8 (amended): with no override and the feature not polyfilled, an
absent support code is coerced to `'n'` and yields `supported = false`
with kind `none`, while a present (truthy) code outside the fixed
code→status table yields `supported = false` with kind `unknown`. -/
theorem unmapped_or_absent_code_statuses (cfg : Config) (fd : FeatureData) (f b v : String)
    (hov : getFeatureOverride cfg f = none)
    (hpoly : isFeaturePolyfilled cfg f = false) :
    (getBrowserSupport (getFallbackVersions cfg b) fd b v = none →
      getFeatureSupportWithConfig cfg (.ok fd) f b v =
        { supported := false, type := "none", description := "No support",
          source := "caniuse-data", rawValue := none }) ∧
    (∀ c, getBrowserSupport (getFallbackVersions cfg b) fd b v = some c →
      c ≠ "" → c ∉ ["y", "a", "n", "d", "p", "u"] →
      getFeatureSupportWithConfig cfg (.ok fd) f b v =
        { supported := false, type := "unknown",
          description := "Unknown support status",
          source := "caniuse-data", rawValue := some c }) := by
  rw [resolve_of_no_override cfg _ f b v hov]
  constructor
  · intro hnone
    simp only [resolveWithData, hnone]
    simp [hpoly, rawCodeOf, getSupportStatus]
  · intro c hc hne hnotin
    simp only [resolveWithData, hc]
    simp only [List.mem_cons, List.not_mem_nil, or_false, not_or] at hnotin
    obtain ⟨h1, h2, h3, h4, h5, h6⟩ := hnotin
    simp [hpoly, rawCodeOf, getSupportStatus, hne, h1, h2, h3, h4, h5, h6]

theorem unmapped_or_absent_code_statuses_witness :
    getFeatureSupportWithConfig ⟨"chrome-37", [], [], [], []⟩
        (.ok ⟨some [("chrome", [("50", "x")])]⟩) "css-grid" "chrome" "50" =
      { supported := false, type := "unknown",
        description := "Unknown support status",
        source := "caniuse-data", rawValue := some "x" } :=
  (unmapped_or_absent_code_statuses ⟨"chrome-37", [], [], [], []⟩
      ⟨some [("chrome", [("50", "x")])]⟩ "css-grid" "chrome" "50"
      (by decide) (by decide)).2
    "x" (by decide) (by decide) (by decide)

/-- Helper: the run taken by `takeWhile` followed by dropping its length
restores the original list. -/
theorem takeWhile_append_drop_len {p : Char → Bool} : ∀ l : List Char,
    l.takeWhile p ++ l.drop (l.takeWhile p).length = l
  | [] => rfl
  | c :: cs => by
    by_cases h : p c
    · simp [List.takeWhile_cons, h, takeWhile_append_drop_len cs]
    · simp [List.takeWhile_cons, h]

/-- Helper: a successful core match is an exact split of the input at
the hyphen that follows the leading lowercase-letter run (which, being
all letters, contains no hyphen — so it is the first hyphen). -/
theorem parseTargetCore_split (cs b v : List Char)
    (h : parseTargetCore cs = some (b, v)) :
    cs = b ++ '-' :: v ∧ b ≠ [] ∧ ∀ c ∈ b, c ≠ '-' := by
  have hsplit := takeWhile_append_drop_len (p := isLowerAZ) cs
  have hmem : ∀ x ∈ cs.takeWhile isLowerAZ, isLowerAZ x = true :=
    fun x hx => List.mem_takeWhile_imp hx
  unfold parseTargetCore at h
  generalize hL : cs.takeWhile isLowerAZ = letters at h hsplit hmem
  generalize hR : cs.drop letters.length = rest at h hsplit
  split at h
  · exact absurd h (by simp)
  · rename_i v0 hneNil
    split at h
    · simp only [Option.some.injEq, Prod.mk.injEq] at h
      obtain ⟨hb, hv⟩ := h
      subst hb
      subst hv
      refine ⟨hsplit.symm, fun hcontra => hneNil hcontra, ?_⟩
      intro x hxm hxeq
      subst hxeq
      exact absurd (hmem _ hxm) (by decide)
    · exact absurd h (by simp)
  · exact absurd h (by simp)

/-- C6: `resolveTargetVersion` always returns a `{browser, version}`
pair, via the chain: exact match in the merged built-in + custom target
table, else verbatim split of `<browser>-<version>` tokens at the first
hyphen, else the configured default baseline's table entry, else the
fixed `{chrome, "37"}` pair. -/
theorem resolve_target_version_chain (cfg : Config) (s : String) :
    (∀ bv, getBrowserTargets cfg s = some bv → resolveTargetVersion cfg s = bv) ∧
    (∀ b v, getBrowserTargets cfg s = none → parseTargetToken s = some (b, v) →
      resolveTargetVersion cfg s = ⟨b, v⟩ ∧ s.data = b.data ++ '-' :: v.data ∧
        b.data ≠ [] ∧ ∀ c ∈ b.data, c ≠ '-') ∧
    (getBrowserTargets cfg s = none → parseTargetToken s = none →
      ∀ bv, getBrowserTargets cfg cfg.defaultBaseline = some bv →
        resolveTargetVersion cfg s = bv) ∧
    (getBrowserTargets cfg s = none → parseTargetToken s = none →
      getBrowserTargets cfg cfg.defaultBaseline = none →
      resolveTargetVersion cfg s = ⟨"chrome", "37"⟩) := by
  refine ⟨?_, ?_, ?_, ?_⟩
  · intro bv h
    simp only [resolveTargetVersion, h]
  · intro b v h hp
    have hcore : ∃ bl vl, parseTargetCore s.data = some (bl, vl) ∧
        bl.asString = b ∧ vl.asString = v := by
      unfold parseTargetToken at hp
      split at hp
      · rename_i bl vl heq
        simp only [Option.some.injEq, Prod.mk.injEq] at hp
        exact ⟨bl, vl, heq, hp.1, hp.2⟩
      · exact absurd hp (by simp)
    obtain ⟨bl, vl, hc, hbs, hvs⟩ := hcore
    obtain ⟨h1, h2, h3⟩ := parseTargetCore_split s.data bl vl hc
    subst hbs
    subst hvs
    exact ⟨by simp only [resolveTargetVersion, h, hp], h1, h2, h3⟩
  · intro h hp bv hd
    simp only [resolveTargetVersion, h, hp, hd]
  · intro h hp hd
    simp only [resolveTargetVersion, h, hp, hd]

theorem resolve_target_version_chain_witness :
    resolveTargetVersion ⟨"nope", [], [], [], []⟩ "37!!" = ⟨"chrome", "37"⟩ :=
  (resolve_target_version_chain ⟨"nope", [], [], [], []⟩ "37!!").2.2.2
    (by decide) (by decide) (by decide)

/-- Helper: the scan loop returns `none` when no element qualifies. -/
theorem pickClosest_eq_none {t : ℚ} :
    ∀ {l : List (String × ℚ)}, (∀ v ∈ l, ¬ v.2 ≤ t) → pickClosest t l = none
  | [], _ => rfl
  | v :: rest, h => by
    unfold pickClosest
    rw [if_neg (h v (List.mem_cons_self v rest))]

/-- Helper: on an ascending list containing at least one element `≤ t`,
the loop selects an element `≤ t` whose value dominates every
qualifying element. -/
theorem pickClosest_spec {t : ℚ} :
    ∀ {l : List (String × ℚ)}, l.Sorted byNumeric → (∃ v ∈ l, v.2 ≤ t) →
      ∃ k m, pickClosest t l = some k ∧ (k, m) ∈ l ∧ m ≤ t ∧
        ∀ v ∈ l, v.2 ≤ t → v.2 ≤ m := by
  intro l
  induction l with
  | nil => intro _ hex; exact absurd hex (by simp)
  | cons v rest ih =>
    intro hs hex
    have hrel : ∀ w ∈ rest, byNumeric v w := (List.sorted_cons.mp hs).1
    have htail : rest.Sorted byNumeric := (List.sorted_cons.mp hs).2
    by_cases hv : v.2 ≤ t
    · by_cases hrest : ∃ w ∈ rest, w.2 ≤ t
      · obtain ⟨k, m, hpk, hmem, hm, hmax⟩ := ih htail hrest
        refine ⟨k, m, ?_, List.mem_cons_of_mem v hmem, hm, ?_⟩
        · unfold pickClosest
          rw [if_pos hv, hpk]
        · intro w hw hwle
          rcases List.mem_cons.mp hw with hweq | hwmem
          · subst hweq
            exact hrel (k, m) hmem
          · exact hmax w hwmem hwle
      · push_neg at hrest
        have hnone : pickClosest t rest = none :=
          pickClosest_eq_none (fun w hw => not_le.mpr (hrest w hw))
        refine ⟨v.1, v.2, ?_, ?_, hv, ?_⟩
        · unfold pickClosest
          rw [if_pos hv, hnone]
        · simp
        · intro w hw hwle
          rcases List.mem_cons.mp hw with hweq | hwmem
          · subst hweq; exact le_refl _
          · exact absurd hwle (not_le.mpr (hrest w hwmem))
    · exfalso
      obtain ⟨w, hw, hwle⟩ := hex
      rcases List.mem_cons.mp hw with hweq | hwmem
      · subst hweq; exact hv hwle
      · exact hv (le_trans (hrel w hwmem) hwle)

/-- Helper: membership in the sorted numeric-version list corresponds to
a matrix key together with its parsed value. -/
theorem mem_sortedNumeric (avail : List String) (k : String) (q : ℚ) :
    (k, q) ∈ sortedNumeric avail ↔ k ∈ avail ∧ parseFloatQ k = some q := by
  unfold sortedNumeric
  rw [List.mem_insertionSort]
  rw [List.mem_filterMap]
  constructor
  · rintro ⟨a, ha, hfa⟩
    rcases Option.map_eq_some'.mp hfa with ⟨qa, hqa, hpair⟩
    obtain ⟨hak, haq⟩ := Prod.mk.injEq .. ▸ hpair
    constructor
    · rw [← hak]; exact ha
    · rw [← hak, hqa, haq]
  · rintro ⟨hk, hq⟩
    exact ⟨k, hk, by rw [hq]; rfl⟩

/-- C2: when the feature's matrix has the browser but neither the exact
target version key nor any configured fallback version, and at least one
numeric version key is `≤` the numeric target, the closest-version step
of `getBrowserSupport` selects a key whose numeric value is the greatest
among those `≤` the target — in particular never one greater than the
target. -/
theorem closest_version_selects_greatest_le (fd : FeatureData)
    (stats : List (String × List (String × String)))
    (bstats : List (String × String)) (fallbackVersions : List String)
    (browser version : String) (t : ℚ)
    (_hstats : fd.stats = some stats)
    (_hbrowser : alistLookup stats browser = some bstats)
    (_hexact : alistLookup bstats version = none)
    (_hfallback : ∀ fb ∈ fallbackVersions, alistLookup bstats fb = none)
    (ht : parseFloatQ version = some t)
    (hex : ∃ k ∈ bstats.map (·.1), ∃ q, parseFloatQ k = some q ∧ q ≤ t) :
    ∃ k, closestStep (bstats.map (·.1)) version = some k ∧
      ∃ m, parseFloatQ k = some m ∧ m ≤ t ∧
        ∀ k' ∈ bstats.map (·.1), ∀ q, parseFloatQ k' = some q → q ≤ t → q ≤ m := by
  unfold closestStep
  rw [ht]
  have hsorted : (sortedNumeric (bstats.map (·.1))).Sorted byNumeric :=
    List.sorted_insertionSort byNumeric _
  have hex2 : ∃ v ∈ sortedNumeric (bstats.map (·.1)), v.2 ≤ t := by
    obtain ⟨k0, hk0, q0, hq0, hle0⟩ := hex
    exact ⟨(k0, q0), (mem_sortedNumeric _ k0 q0).mpr ⟨hk0, hq0⟩, hle0⟩
  obtain ⟨k, m, hpk, hmem, hm, hmax⟩ := pickClosest_spec hsorted hex2
  have hkm := (mem_sortedNumeric _ k m).mp hmem
  refine ⟨k, hpk, m, hkm.2, hm, ?_⟩
  intro k' hk' q hq hqle
  exact hmax (k', q) ((mem_sortedNumeric _ k' q).mpr ⟨hk', hq⟩) hqle

theorem closest_version_selects_greatest_le_witness :
    ∃ k, closestStep (([("57", "y")] : List (String × String)).map (·.1)) "60" = some k ∧
      ∃ m, parseFloatQ k = some m ∧ m ≤ 60 ∧
        ∀ k' ∈ ([("57", "y")] : List (String × String)).map (·.1),
          ∀ q, parseFloatQ k' = some q → q ≤ 60 → q ≤ m :=
  closest_version_selects_greatest_le ⟨some [("chrome", [("57", "y")])]⟩
    [("chrome", [("57", "y")])] [("57", "y")] [] "chrome" "60" 60
    rfl (by decide) (by decide) (by decide) (by simp [parseFloatQ, parseDigits])
    ⟨"57", by decide, 57, by simp [parseFloatQ, parseDigits], by norm_num⟩

/-- Helper: the summary loop's running totals equal the sums of
`supported` and `total` over the targets that have a result entry. -/
theorem summary_fold_totals (results : List (String × TargetResult)) :
    ∀ (targets : List String) (st : SummaryState),
      (targets.foldl (summaryStep results) st).totalSupported =
        st.totalSupported +
          ((targets.filterMap (alistLookup results)).map (·.supported)).sum ∧
      (targets.foldl (summaryStep results) st).totalFeatures =
        st.totalFeatures +
          ((targets.filterMap (alistLookup results)).map (·.total)).sum
  | [], st => by simp
  | tg :: rest, st => by
    have ih := summary_fold_totals results rest (summaryStep results st tg)
    rw [List.foldl_cons]
    cases h : alistLookup results tg with
    | none =>
      have hstep : summaryStep results st tg = st := by
        unfold summaryStep; rw [h]
      rw [hstep] at ih ⊢
      simpa [List.filterMap_cons, h] using ih
    | some r =>
      have hsup : (summaryStep results st tg).totalSupported =
          st.totalSupported + r.supported := by
        unfold summaryStep; rw [h]
      have htot : (summaryStep results st tg).totalFeatures =
          st.totalFeatures + r.total := by
        unfold summaryStep; rw [h]
      rw [ih.1, ih.2, hsup, htot] at *
      constructor <;> simp [List.filterMap_cons, h] <;> omega

/-- C3: whenever the summed per-target totals are positive, the overall
score equals `round(ΣsupportedCount / (ΣtotalCount · targetCount) · 100)`
— the supported-count-weighted ratio additionally divided by the number
of requested targets. -/
theorem overall_score_weighted (results : List (String × TargetResult))
    (targets : List String)
    (hpos : 0 < ((targets.filterMap (alistLookup results)).map (·.total)).sum) :
    (generateCompatibilitySummary results targets).overallScore =
      jsRound (((((targets.filterMap (alistLookup results)).map (·.supported)).sum : ℕ) : ℚ) /
        ((((((targets.filterMap (alistLookup results)).map (·.total)).sum : ℕ) : ℚ)) *
          (targets.length : ℚ)) * 100) := by
  unfold generateCompatibilitySummary summaryFinish
  obtain ⟨h1, h2⟩ := summary_fold_totals results targets ⟨0, 0, [], []⟩
  simp only [Nat.zero_add] at h1 h2
  simp only [h1, h2]
  rw [if_pos hpos]
  rw [div_div]

theorem overall_score_weighted_witness :
    0 < (((["chrome-37"] : List String).filterMap
        (alistLookup [("chrome-37", (⟨2, 1, 1, ["css-grid"]⟩ : TargetResult))])).map
          (·.total)).sum ∧
    (generateCompatibilitySummary [("chrome-37", ⟨2, 1, 1, ["css-grid"]⟩)]
        ["chrome-37"]).overallScore =
      jsRound (((((((["chrome-37"] : List String).filterMap
            (alistLookup [("chrome-37", (⟨2, 1, 1, ["css-grid"]⟩ : TargetResult))])).map
              (·.supported)).sum : ℕ) : ℚ)) /
        ((((((["chrome-37"] : List String).filterMap
            (alistLookup [("chrome-37", (⟨2, 1, 1, ["css-grid"]⟩ : TargetResult))])).map
              (·.total)).sum : ℕ) : ℚ) *
          ((["chrome-37"] : List String).length : ℚ)) * 100) :=
  ⟨by decide, overall_score_weighted _ _ (by decide)⟩

/-- The target list recorded for feature `X` by the first issue carrying
it (issues are found with `criticalIssues.find`, which scans front to
back). -/
def targetsOfIssue : List Issue → String → List String
  | [], _ => []
  | i :: rest, X => if i.feature = X then i.targets else targetsOfIssue rest X

/-- Whether `X` is listed as unsupported in the result entry of target
`t` (false when the target has no result entry). -/
def unsupportedIn (results : List (String × TargetResult)) (X t : String) : Bool :=
  match alistLookup results t with
  | some r => decide (X ∈ r.unsupportedFeatures)
  | none => false

theorem unsupportedIn_iff (results : List (String × TargetResult)) (X t : String) :
    unsupportedIn results X t = true ↔
      ∃ r, alistLookup results t = some r ∧ X ∈ r.unsupportedFeatures := by
  unfold unsupportedIn
  cases h : alistLookup results t <;> simp [h]

theorem targetsOfIssue_addIssueTarget (X tgt f : String) :
    ∀ issues : List Issue,
      targetsOfIssue (addIssueTarget issues tgt f) X =
        if X = f then targetsOfIssue issues X ++ [tgt]
        else targetsOfIssue issues X
  | [] => by
    by_cases hx : X = f
    · subst hx
      simp [addIssueTarget, targetsOfIssue]
    · simp [addIssueTarget, targetsOfIssue, hx, Ne.symm hx]
  | i :: rest => by
    by_cases hif : i.feature = f
    · by_cases hx : X = f
      · subst hx
        simp [addIssueTarget, targetsOfIssue, hif]
      · simp [addIssueTarget, targetsOfIssue, hif, hx, Ne.symm hx]
    · by_cases hiX : i.feature = X
      · have hx : X ≠ f := fun h => hif (hiX.trans h)
        simp [addIssueTarget, targetsOfIssue, hif, hiX, hx]
      · have ih := targetsOfIssue_addIssueTarget X tgt f rest
        simp [addIssueTarget, targetsOfIssue, hif, hiX, ih]

theorem targetsOfIssue_addTargetIssues (tgt X : String) :
    ∀ (feats : List String) (issues : List Issue), feats.Nodup →
      targetsOfIssue (addTargetIssues issues tgt feats) X =
        targetsOfIssue issues X ++ (if X ∈ feats then [tgt] else [])
  | [], issues, _ => by simp [addTargetIssues]
  | f :: feats, issues, hnd => by
    have hf : f ∉ feats := (List.nodup_cons.mp hnd).1
    have ih := targetsOfIssue_addTargetIssues tgt X feats (addIssueTarget issues tgt f)
      (List.nodup_cons.mp hnd).2
    have hstep : addTargetIssues issues tgt (f :: feats) =
        addTargetIssues (addIssueTarget issues tgt f) tgt feats := by
      simp [addTargetIssues]
    rw [hstep, ih, targetsOfIssue_addIssueTarget]
    by_cases hx : X = f
    · subst hx
      simp [hf]
    · simp [hx, List.mem_cons]

theorem mem_features_addIssueTarget (tgt f : String) :
    ∀ (issues : List Issue) (x : String),
      x ∈ (addIssueTarget issues tgt f).map (·.feature) →
        x ∈ issues.map (·.feature) ∨ x = f
  | [], x, hx => by
    simp [addIssueTarget] at hx
    exact Or.inr hx
  | i :: rest, x, hx => by
    by_cases hif : i.feature = f
    · simp only [addIssueTarget, if_pos hif, List.map_cons] at hx
      exact Or.inl (by simpa using hx)
    · simp only [addIssueTarget, if_neg hif, List.map_cons, List.mem_cons] at hx
      rcases hx with hx | hx
      · exact Or.inl (by simp [hx])
      · rcases mem_features_addIssueTarget tgt f rest x hx with h | h
        · exact Or.inl (List.mem_cons_of_mem _ h)
        · exact Or.inr h

theorem nodup_features_addIssueTarget (tgt f : String) :
    ∀ issues : List Issue, (issues.map (·.feature)).Nodup →
      ((addIssueTarget issues tgt f).map (·.feature)).Nodup
  | [], _ => by simp [addIssueTarget]
  | i :: rest, hnd => by
    rw [List.map_cons, List.nodup_cons] at hnd
    by_cases hif : i.feature = f
    · simp only [addIssueTarget, if_pos hif, List.map_cons, List.nodup_cons]
      exact hnd
    · simp only [addIssueTarget, if_neg hif, List.map_cons, List.nodup_cons]
      refine ⟨?_, nodup_features_addIssueTarget tgt f rest hnd.2⟩
      intro hmem
      rcases mem_features_addIssueTarget tgt f rest _ hmem with h | h
      · exact hnd.1 h
      · exact hif h

theorem nodup_features_addTargetIssues (tgt : String) :
    ∀ (feats : List String) (issues : List Issue),
      (issues.map (·.feature)).Nodup →
      ((addTargetIssues issues tgt feats).map (·.feature)).Nodup
  | [], issues, hnd => by simpa [addTargetIssues] using hnd
  | f :: feats, issues, hnd => by
    have hstep : addTargetIssues issues tgt (f :: feats) =
        addTargetIssues (addIssueTarget issues tgt f) tgt feats := by
      simp [addTargetIssues]
    rw [hstep]
    exact nodup_features_addTargetIssues tgt feats _
      (nodup_features_addIssueTarget tgt f issues hnd)

theorem exists_issue_of_targetsOfIssue_ne_nil :
    ∀ (issues : List Issue) (X : String), targetsOfIssue issues X ≠ [] →
      ∃ i ∈ issues, i.feature = X ∧ i.targets = targetsOfIssue issues X
  | [], X, h => absurd rfl h
  | i :: rest, X, h => by
    by_cases hf : i.feature = X
    · exact ⟨i, List.mem_cons_self i rest, hf, by simp [targetsOfIssue, hf]⟩
    · have h' : targetsOfIssue rest X ≠ [] := by
        simpa [targetsOfIssue, hf] using h
      obtain ⟨j, hj, hjf, hjt⟩ := exists_issue_of_targetsOfIssue_ne_nil rest X h'
      exact ⟨j, List.mem_cons_of_mem _ hj, hjf, by simp [targetsOfIssue, hf, hjt]⟩

theorem targetsOfIssue_of_mem (X : String) :
    ∀ (issues : List Issue), (issues.map (·.feature)).Nodup →
      ∀ i ∈ issues, i.feature = X → targetsOfIssue issues X = i.targets
  | [], _, i, hi, _ => absurd hi (List.not_mem_nil i)
  | j :: rest, hnd, i, hi, hiX => by
    rw [List.map_cons, List.nodup_cons] at hnd
    rcases List.mem_cons.mp hi with heq | hmem
    · subst heq
      simp [targetsOfIssue, hiX]
    · have hjX : j.feature ≠ X := by
        intro hj
        exact hnd.1 (hj ▸ hiX ▸ List.mem_map_of_mem (·.feature) hmem)
      rw [targetsOfIssue, if_neg hjX]
      exact targetsOfIssue_of_mem X rest hnd.2 i hmem hiX

/-- Helper: across the summary loop, the target list recorded for `X`
is exactly the requested targets (in order) whose result lists `X` as
unsupported; the recorded issue features stay duplicate-free. -/
theorem criticalIssues_fold (results : List (String × TargetResult)) (X : String)
    (hnd : ∀ t r, alistLookup results t = some r → r.unsupportedFeatures.Nodup) :
    ∀ (targets : List String) (st : SummaryState),
      targetsOfIssue (targets.foldl (summaryStep results) st).criticalIssues X =
        targetsOfIssue st.criticalIssues X ++ targets.filter (unsupportedIn results X) ∧
      ((st.criticalIssues.map (·.feature)).Nodup →
        ((targets.foldl (summaryStep results) st).criticalIssues.map (·.feature)).Nodup)
  | [], st => by simp
  | t :: rest, st => by
    have ih := criticalIssues_fold results X hnd rest (summaryStep results st t)
    rw [List.foldl_cons]
    cases h : alistLookup results t with
    | none =>
      have hstep : summaryStep results st t = st := by
        unfold summaryStep; rw [h]
      have hfil : unsupportedIn results X t = false := by
        unfold unsupportedIn; rw [h]
      rw [hstep] at ih ⊢
      refine ⟨?_, ih.2⟩
      rw [ih.1, List.filter_cons, hfil]
      simp
    | some r =>
      have hstep : (summaryStep results st t).criticalIssues =
          addTargetIssues st.criticalIssues t r.unsupportedFeatures := by
        unfold summaryStep; rw [h]
      have hfil : unsupportedIn results X t = decide (X ∈ r.unsupportedFeatures) := by
        unfold unsupportedIn; rw [h]
      constructor
      · rw [ih.1, hstep, targetsOfIssue_addTargetIssues t X r.unsupportedFeatures
          st.criticalIssues (hnd t r h), List.filter_cons, hfil]
        by_cases hx : X ∈ r.unsupportedFeatures
        · simp [hx]
        · simp [hx]
      · intro hnds
        apply ih.2
        rw [hstep]
        exact nodup_features_addTargetIssues t r.unsupportedFeatures
          st.criticalIssues hnds

/-- Helper: a successful association-list lookup returns one of the
stored values. -/
theorem alistLookup_mem {α : Type} {l : List (String × α)} {k : String} {v : α}
    (h : alistLookup l k = some v) : v ∈ l.map (·.2) := by
  unfold alistLookup at h
  rcases Option.map_eq_some'.mp h with ⟨p, hp, hv⟩
  subst hv
  exact List.mem_map_of_mem _ (List.mem_of_find?_eq_some hp)

/-- C5: for a non-empty requested-target list whose per-target
unsupported-feature lists are duplicate-free (they are sets in the data
model), `commonUnsupported` contains exactly the features listed as
unsupported by the result of every requested target — the intersection;
a feature unsupported in one target but not in another is excluded. -/
theorem common_unsupported_is_intersection (results : List (String × TargetResult))
    (targets : List String) (X : String)
    (hnd : ∀ t r, alistLookup results t = some r → r.unsupportedFeatures.Nodup)
    (hne : targets ≠ []) :
    X ∈ (generateCompatibilitySummary results targets).commonUnsupported ↔
      ∀ t ∈ targets, ∃ r, alistLookup results t = some r ∧
        X ∈ r.unsupportedFeatures := by
  obtain ⟨hfold, hnodup⟩ := criticalIssues_fold results X hnd targets ⟨0, 0, [], []⟩
  have hnodup' := hnodup (by simp)
  have hfold' : targetsOfIssue
      (targets.foldl (summaryStep results) ⟨0, 0, [], []⟩).criticalIssues X =
        targets.filter (unsupportedIn results X) := by
    simpa [targetsOfIssue] using hfold
  have hmemiff : X ∈ (generateCompatibilitySummary results targets).commonUnsupported ↔
      ∃ i ∈ (targets.foldl (summaryStep results) ⟨0, 0, [], []⟩).criticalIssues,
        i.targets.length = targets.length ∧ i.feature = X := by
    simp only [generateCompatibilitySummary, summaryFinish, List.mem_map,
      List.mem_filter, decide_eq_true_eq]
    constructor
    · rintro ⟨i, ⟨hi, hl⟩, hf⟩
      exact ⟨i, hi, hl, hf⟩
    · rintro ⟨i, hi, hl, hf⟩
      exact ⟨i, ⟨hi, hl⟩, hf⟩
  rw [hmemiff]
  constructor
  · rintro ⟨i, hi, hlen, hiX⟩
    have htg := targetsOfIssue_of_mem X _ hnodup' i hi hiX
    have hfilt : targets.filter (unsupportedIn results X) = targets := by
      apply List.Sublist.eq_of_length (List.filter_sublist _)
      rw [← hfold', htg, hlen]
    intro t ht
    have := (List.filter_eq_self.mp hfilt) t ht
    exact (unsupportedIn_iff results X t).mp this
  · intro hall
    have hfeq : targets.filter (unsupportedIn results X) = targets :=
      List.filter_eq_self.mpr
        (fun t ht => (unsupportedIn_iff results X t).mpr (hall t ht))
    have htne : targetsOfIssue
        (targets.foldl (summaryStep results) ⟨0, 0, [], []⟩).criticalIssues X ≠ [] := by
      rw [hfold', hfeq]
      exact hne
    obtain ⟨i, hi, hif, hit⟩ := exists_issue_of_targetsOfIssue_ne_nil _ X htne
    refine ⟨i, hi, ?_, hif⟩
    rw [hit, hfold', hfeq]

theorem common_unsupported_is_intersection_witness :
    "x" ∈ (generateCompatibilitySummary
        [("a", ⟨1, 0, 1, ["x"]⟩), ("b", ⟨1, 0, 1, ["x", "y"]⟩)]
        ["a", "b"]).commonUnsupported ↔
      ∀ t ∈ ["a", "b"],
        ∃ r, alistLookup [("a", (⟨1, 0, 1, ["x"]⟩ : TargetResult)),
            ("b", ⟨1, 0, 1, ["x", "y"]⟩)] t = some r ∧
          "x" ∈ r.unsupportedFeatures :=
  common_unsupported_is_intersection
    [("a", ⟨1, 0, 1, ["x"]⟩), ("b", ⟨1, 0, 1, ["x", "y"]⟩)] ["a", "b"] "x"
    (fun t r h => by
      have hm := alistLookup_mem h
      simp at hm
      rcases hm with rfl | rfl <;> decide)
    (by decide)

/-- Helper: at depth 0 with `maxDepth = 0`, the entry loop processes
file entries and leaves the accumulator untouched on every directory
entry (the recursive call would run at depth 1 > 0). -/
theorem scanItems_depth_zero (p : ScanParams) (hd0 : p.maxDepth = 0) :
    ∀ (entries : List FSEntry) (dirPath : String) (results : ScanResults),
      scanItems p entries dirPath 0 results = scanTopLevelOnly p entries dirPath results
  | [], _, _ => by rw [scanItems]; rfl
  | FSEntry.file name :: rest, dirPath, results => by
    rw [scanItems, scanItems_depth_zero p hd0 rest dirPath _]
    rfl
  | FSEntry.dir name sub :: rest, dirPath, results => by
    rw [scanItems]
    have h2 : (if p.excludeDirs.contains name then results
        else if 0 + 1 > p.maxDepth then results
        else scanItems p sub (dirPath ++ "/" ++ name) (0 + 1) results) = results := by
      rw [hd0]
      simp
    rw [h2, scanItems_depth_zero p hd0 rest dirPath results]
    rfl

/-- C9: with `maxDepth = 0` the scan covers only files directly in the
root directory: any recursive call whose depth counter exceeds
`maxDepth` returns its accumulator unchanged, and the whole scan equals
the top-level-only fold — so files inside nested subdirectories are
absent from the `ScanResults`. -/
theorem maxdepth_zero_scans_top_level_only (p : ScanParams) (hd0 : p.maxDepth = 0) :
    (∀ (entries : List FSEntry) (dirPath : String) (d : Nat) (results : ScanResults),
      d > p.maxDepth → scanDirectoryRecursive p entries dirPath d results = results) ∧
    ∀ (rootEntries : List FSEntry) (rootPath : String),
      scanDirectory p rootEntries rootPath =
        scanTopLevelOnly p rootEntries rootPath ⟨[], [], ⟨0, 0, 0⟩⟩ := by
  constructor
  · intro entries dirPath d results hgt
    unfold scanDirectoryRecursive
    rw [if_pos hgt]
  · intro rootEntries rootPath
    unfold scanDirectory scanDirectoryRecursive
    rw [if_neg (by omega)]
    exact scanItems_depth_zero p hd0 rootEntries rootPath _

theorem maxdepth_zero_scans_top_level_only_witness :
    scanDirectory ⟨fun _ => ["flexbox"], ["node_modules"], [], 0⟩
        [FSEntry.file "a.css", FSEntry.dir "sub" [FSEntry.file "b.css"]] "." =
      scanTopLevelOnly ⟨fun _ => ["flexbox"], ["node_modules"], [], 0⟩
        [FSEntry.file "a.css", FSEntry.dir "sub" [FSEntry.file "b.css"]] "."
        ⟨[], [], ⟨0, 0, 0⟩⟩ :=
  (maxdepth_zero_scans_top_level_only ⟨fun _ => ["flexbox"], ["node_modules"], [], 0⟩
    rfl).2 [FSEntry.file "a.css", FSEntry.dir "sub" [FSEntry.file "b.css"]] "."
